import Mathlib

/-!
Verification of the opportunity-detection and alert-scheduling core of the
textinvestment repository, as a shallow embedding in Lean.

Python floats are modelled as exact rationals, Python `None`-able floats as
`Option ℚ`, timestamps (`datetime.utcnow()`) as integer minutes since an epoch
with calendar days of 1440 minutes in the fixed UTC reference timezone, and the
SQLAlchemy tables as Lean lists of rows.  Python exceptions that the source can
actually raise are modelled with `Except`; provider fetch failures, which the
source catches and turns into `None`, are modelled as `Option` results.
-/

set_option maxHeartbeats 1000000

namespace TextInvestment

/-! ## Data model (app/models.py) -/

/-- `AlertFrequency` enum from app/models.py. -/
inductive AlertFrequency
  | corrections
  | realtime
  | daily
  | weekly
deriving DecidableEq

/-- `StocksCache` row (app/models.py lines 116-134).  Field `pe` embeds the
source column `pe_ratio` and `pb` embeds `pb_ratio`. -/
structure StocksCache where
  ticker : String
  company_name : Option String
  sector : Option String
  industry : Option String
  last_price : Option ℚ
  weekly_change : Option ℚ
  fifty_two_week_high : Option ℚ
  fifty_two_week_low : Option ℚ
  pe : Option ℚ
  pb : Option ℚ
  roe : Option ℚ
  debt_to_equity : Option ℚ
  profit_margin : Option ℚ
  last_updated : ℤ
deriving DecidableEq

/-- `UserPreferences` row (app/models.py lines 56-83), the per-user thresholds
and alert settings. -/
structure UserPreferences where
  alert_frequency : AlertFrequency
  favorite_industries : List String
  is_paused : Bool
  investment_types : List String
  min_drop_threshold : ℚ
  max_pe : ℚ
  max_debt_equity : ℚ
  min_roe : ℚ
  prefer_stocks_over_etfs : Bool
  etf_min_drop : ℚ
deriving DecidableEq

/-- `User` row (app/models.py lines 29-53) with its optional preferences
relationship. -/
structure User where
  id : ℕ
  phone_number : String
  is_active : Bool
  preferences : Option UserPreferences
deriving DecidableEq

/-- `Alert` row (app/models.py lines 100-113).  The rendered `message` text is
not read by any embedded logic and is omitted. -/
structure Alert where
  user_id : ℕ
  ticker : String
  opportunity_score : ℚ
  sent_at : ℤ
deriving DecidableEq

/-- Python truthiness of an optional float: `None` and `0.0` are falsy. -/
def pyTruthy : Option ℚ → Bool
  | none => false
  | some x => x != 0

/-! ## Scoring (app/analysis/stock_scorer.py) -/

/-- The reason strings appended by `calculate_score`, one constructor per
formatted message, carrying the metric value interpolated into the text. -/
inductive Reason
  | dropSignificant (drop : ℚ)
  | dropGood (drop : ℚ)
  | dropPlain (drop : ℚ)
  | peVeryLow (pe : ℚ)
  | peLow (pe : ℚ)
  | peReasonable (pe : ℚ)
  | deVeryLow (de : ℚ)
  | deLow (de : ℚ)
  | deManageable (de : ℚ)
  | roeExcellent (r : ℚ)
  | roeStrong (r : ℚ)
  | roeGood (r : ℚ)
  | marginHigh (m : ℚ)
  | marginSolid (m : ℚ)
  | marginPositive (m : ℚ)
deriving DecidableEq

/-- Drop-from-52-week-high bucket of `calculate_score` (stock_scorer.py lines
37-48): guarded by Python truthiness of both the high and the price. -/
def dropBucket (stock : StocksCache) (prefs : UserPreferences) : ℚ × List Reason :=
  if pyTruthy stock.fifty_two_week_high && pyTruthy stock.last_price then
    let drop := (stock.fifty_two_week_high.getD 0 - stock.last_price.getD 0) /
      stock.fifty_two_week_high.getD 0
    if drop ≥ 30/100 then (30, [Reason.dropSignificant drop])
    else if drop ≥ 20/100 then (25, [Reason.dropGood drop])
    else if drop ≥ prefs.min_drop_threshold then (15, [Reason.dropPlain drop])
    else (0, [])
  else (0, [])

/-- P/E bucket of `calculate_score` (stock_scorer.py lines 50-60), guarded by
`is not None`. -/
def peBucket (stock : StocksCache) (prefs : UserPreferences) : ℚ × List Reason :=
  match stock.pe with
  | none => (0, [])
  | some pe =>
    if pe < 10 then (20, [Reason.peVeryLow pe])
    else if pe < 15 then (15, [Reason.peLow pe])
    else if pe ≤ prefs.max_pe then (10, [Reason.peReasonable pe])
    else (0, [])

/-- Debt-to-equity bucket of `calculate_score` (stock_scorer.py lines 62-72). -/
def deBucket (stock : StocksCache) (prefs : UserPreferences) : ℚ × List Reason :=
  match stock.debt_to_equity with
  | none => (0, [])
  | some de =>
    if de < 1/2 then (15, [Reason.deVeryLow de])
    else if de < 1 then (10, [Reason.deLow de])
    else if de ≤ prefs.max_debt_equity then (5, [Reason.deManageable de])
    else (0, [])

/-- ROE bucket of `calculate_score` (stock_scorer.py lines 74-84). -/
def roeBucket (stock : StocksCache) (prefs : UserPreferences) : ℚ × List Reason :=
  match stock.roe with
  | none => (0, [])
  | some r =>
    if r ≥ 25/100 then (20, [Reason.roeExcellent r])
    else if r ≥ 20/100 then (15, [Reason.roeStrong r])
    else if r ≥ prefs.min_roe then (10, [Reason.roeGood r])
    else (0, [])

/-- Profit-margin bucket of `calculate_score` (stock_scorer.py lines 86-96). -/
def marginBucket (stock : StocksCache) (prefs : UserPreferences) : ℚ × List Reason :=
  match stock.profit_margin with
  | none => (0, [])
  | some m =>
    if m ≥ 20/100 then (15, [Reason.marginHigh m])
    else if m ≥ 10/100 then (10, [Reason.marginSolid m])
    else if m ≥ 5/100 then (5, [Reason.marginPositive m])
    else (0, [])

/-- `calculate_score` (stock_scorer.py lines 27-98): the sequential score
accumulation and reason appends, bucket by bucket in declaration order. -/
def calculate_score (stock : StocksCache) (prefs : UserPreferences) : ℚ × List Reason :=
  let d := dropBucket stock prefs
  let p := peBucket stock prefs
  let e := deBucket stock prefs
  let r := roeBucket stock prefs
  let m := marginBucket stock prefs
  (0 + d.1 + p.1 + e.1 + r.1 + m.1, d.2 ++ p.2 ++ e.2 ++ r.2 ++ m.2)

/-- `meets_criteria` (stock_scorer.py lines 101-128).  The first guard is the
Python test `not stock.last_price or not stock.fifty_two_week_high`, which
fires for `None` and for `0.0` alike. -/
def meets_criteria (stock : StocksCache) (prefs : UserPreferences) : Bool × ℚ :=
  if !pyTruthy stock.last_price || !pyTruthy stock.fifty_two_week_high then (false, 0)
  else
    let drop := (stock.fifty_two_week_high.getD 0 - stock.last_price.getD 0) /
      stock.fifty_two_week_high.getD 0
    if drop < prefs.min_drop_threshold then (false, drop)
    else if stock.pe.any (fun pe => pe > prefs.max_pe) then (false, drop)
    else if stock.debt_to_equity.any (fun de => de > prefs.max_debt_equity) then (false, drop)
    else if stock.roe.any (fun r => r < prefs.min_roe) then (false, drop)
    else (true, drop)

/-- `Opportunity` (stock_scorer.py lines 9-24). -/
structure Opportunity where
  stock : StocksCache
  score : ℚ
  drop_from_high : ℚ
  reasons : List Reason
deriving DecidableEq

/-! ## Ticker universe (app/analysis/defaults.py)

Python builds these universes with `set` operations and scans the resulting
`list(set)`; only membership and emptiness of the sets are ever consumed (the
database query filters by `ticker.in_(...)`), so the sets are embedded as
`Finset String`. -/

/-- `MAJOR_ETFS` (defaults.py lines 39-85). -/
def MAJOR_ETFS : List String :=
  ["SPY", "QQQ", "VTI", "IWM", "DIA", "VOO", "IVV", "VTV", "VUG", "MDY",
   "XLK", "XLF", "XLV", "XLE", "XLI", "XLY", "XLP", "XLU", "XLB", "XLRE", "XLC",
   "ARKK", "SOXX", "IBB", "XBI", "SMH", "HACK", "ICLN", "TAN",
   "VEA", "VWO", "EFA", "EEM", "IEMG",
   "TLT", "IEF", "BND", "LQD", "HYG", "AGG"]

/-- `COMMODITIES` (defaults.py lines 88-99). -/
def COMMODITIES : List String :=
  ["GLD", "SLV", "USO", "UNG", "DBA", "CORN", "WEAT", "CPER", "PALL", "PPLT"]

/-- `CRYPTO` (defaults.py lines 102-113). -/
def CRYPTO : List String :=
  ["BTC-USD", "ETH-USD", "SOL-USD", "XRP-USD", "ADA-USD", "DOGE-USD",
   "AVAX-USD", "DOT-USD", "MATIC-USD", "LINK-USD"]

/-- `STOCKS_BY_SECTOR` (defaults.py lines 116-128). -/
def STOCKS_BY_SECTOR : List (String × List String) :=
  [("Technology", ["AAPL", "MSFT", "GOOGL", "NVDA", "META", "AMZN", "CRM", "ADBE", "INTC", "AMD"]),
   ("Healthcare", ["JNJ", "UNH", "PFE", "MRK", "ABBV", "LLY", "TMO", "ABT", "BMY", "AMGN"]),
   ("Financial Services", ["JPM", "BAC", "WFC", "GS", "MS", "C", "BLK", "SCHW", "AXP", "V"]),
   ("Consumer Discretionary", ["TSLA", "HD", "MCD", "NKE", "SBUX", "LOW", "TJX", "BKNG", "CMG", "LULU"]),
   ("Consumer Staples", ["PG", "KO", "PEP", "COST", "WMT", "PM", "MO", "CL", "MDLZ", "KHC"]),
   ("Industrials", ["CAT", "HON", "UNP", "UPS", "BA", "GE", "MMM", "LMT", "RTX", "DE"]),
   ("Energy", ["XOM", "CVX", "COP", "SLB", "EOG", "MPC", "PSX", "VLO", "OXY", "KMI"]),
   ("Utilities", ["NEE", "DUK", "SO", "D", "AEP", "EXC", "SRE", "XEL", "ED", "WEC"]),
   ("Real Estate", ["AMT", "PLD", "CCI", "EQIX", "PSA", "SPG", "O", "WELL", "DLR", "AVB"]),
   ("Materials", ["LIN", "APD", "SHW", "ECL", "FCX", "NEM", "NUE", "DOW", "DD", "PPG"]),
   ("Communication Services", ["GOOG", "META", "DIS", "NFLX", "CMCSA", "VZ", "T", "CHTR", "TMUS", "EA"])]

/-- `BUFFETT_DEFAULTS["min_weekly_drop"]` (defaults.py line 14), the configured
freshness threshold read by find_opportunities. -/
def BUFFETT_MIN_WEEKLY_DROP : ℚ := 5/100

/-- `get_all_stocks` (defaults.py lines 131-136), as the set it denotes. -/
def get_all_stocks : Finset String :=
  (STOCKS_BY_SECTOR.foldl (fun acc p => acc ++ p.2) []).toFinset

/-- `get_tickers_by_investment_type` (defaults.py lines 139-149). -/
def get_tickers_by_investment_type (t : String) : Finset String :=
  if t = "Stocks" then get_all_stocks
  else if t = "ETFs" then MAJOR_ETFS.toFinset
  else if t = "Commodities" then COMMODITIES.toFinset
  else if t = "Crypto" then CRYPTO.toFinset
  else ∅

/-- `get_tickers_for_investment_types` (defaults.py lines 152-157). -/
def get_tickers_for_investment_types (ts : List String) : Finset String :=
  ts.foldl (fun acc t => acc ∪ get_tickers_by_investment_type t) ∅

/-! ## Opportunity scan (app/analysis/dip_detector.py) -/

/-- `get_stocks_for_industries` (dip_detector.py lines 17-23): the union of the
sector lists of the requested industries that exist in `STOCKS_BY_SECTOR`. -/
def get_stocks_for_industries (industries : List String) : Finset String :=
  (industries.foldl
    (fun acc ind =>
      match STOCKS_BY_SECTOR.find? (fun p => p.1 == ind) with
      | some p => acc ++ p.2
      | none => acc)
    []).toFinset

/-- The ticker universe scanned by `find_opportunities` (dip_detector.py lines
51-85): investment-type union, industry restriction of the equities subset,
ETF removal, and the fall-back to all stocks when the set comes out empty. -/
def tickers_to_scan (prefs : UserPreferences) : Finset String :=
  let investment_types :=
    if prefs.investment_types.isEmpty then ["Stocks", "ETFs", "Commodities", "Crypto"]
    else prefs.investment_types
  let allowed0 := get_tickers_for_investment_types investment_types
  let allowed1 :=
    if investment_types.contains "Stocks" && !prefs.favorite_industries.isEmpty then
      (allowed0 \ get_all_stocks) ∪ get_stocks_for_industries prefs.favorite_industries
    else allowed0
  let allowed2 :=
    if investment_types.contains "ETFs" && prefs.prefer_stocks_over_etfs then allowed1
    else if !investment_types.contains "ETFs" then allowed1 \ MAJOR_ETFS.toFinset
    else allowed1
  if allowed2 = ∅ then get_all_stocks else allowed2

/-- The Python exceptions the embedded code can raise. -/
inductive PyErr
  | typeError
deriving DecidableEq

/-- `meets_criteria` is defined with exactly two parameters, `stock` and
`prefs`, and no defaults (stock_scorer.py line 101). -/
def meetsCriteriaParamCount : ℕ := 2

/-- Python call semantics for positional arguments: a call whose argument count
differs from the function parameter count (no defaults, no varargs) raises
TypeError before the function body runs. -/
def pyCallPositional (paramCount argCount : ℕ) : Except PyErr Unit :=
  if argCount = paramCount then Except.ok () else Except.error PyErr.typeError

/-- The call `meets_criteria(stock, prefs, min_weekly_drop)` made by
`find_opportunities` (dip_detector.py line 95): three positional arguments
against the two-parameter `meets_criteria`, so the call raises TypeError and
the body is never entered. -/
def call_meets_criteria (stock : StocksCache) (prefs : UserPreferences)
    (_minWeeklyDrop : ℚ) : Except PyErr (Bool × ℚ) := do
  pyCallPositional meetsCriteriaParamCount 3
  pure (meets_criteria stock prefs)

/-- The per-snapshot loop of `find_opportunities` (dip_detector.py lines
93-116): criteria call, stricter ETF drop rule, scoring, collection in scan
order. -/
def scanLoop (prefs : UserPreferences) :
    List StocksCache → List Opportunity → Except PyErr (List Opportunity)
  | [], acc => Except.ok acc
  | stock :: rest, acc => do
    let pd ← call_meets_criteria stock prefs BUFFETT_MIN_WEEKLY_DROP
    if !pd.1 then scanLoop prefs rest acc
    else
      let is_etf := MAJOR_ETFS.contains stock.ticker
      if is_etf && prefs.prefer_stocks_over_etfs && pd.2 < prefs.etf_min_drop then
        scanLoop prefs rest acc
      else
        let sr := calculate_score stock prefs
        scanLoop prefs rest
          (acc ++ [{ stock := stock, score := sr.1, drop_from_high := pd.2, reasons := sr.2 }])

/-- Stable insertion used to embed `sorted(opportunities, key=lambda x: x.score,
reverse=True)`: an element moves past exactly the elements of strictly greater
score, so equal scores keep their original relative order. -/
def insertScoreDesc (a : Opportunity) : List Opportunity → List Opportunity
  | [] => [a]
  | b :: l => if b.score > a.score then b :: insertScoreDesc a l else a :: b :: l

/-- The stable descending-score sort of dip_detector.py line 119.  Python
`sorted` is stable, and the stable sort by a total key order is unique, so this
insertion sort computes the same list. -/
def sortScoreDesc : List Opportunity → List Opportunity
  | [] => []
  | a :: l => insertScoreDesc a (sortScoreDesc l)

/-- `find_opportunities` (dip_detector.py lines 38-119): universe computation,
cache query (embedded as a filter of the stocks_cache table in table order),
scan loop, and final sort. -/
def find_opportunities (table : List StocksCache) (prefs : UserPreferences) :
    Except PyErr (List Opportunity) := do
  let scanSet := tickers_to_scan prefs
  let stocks := table.filter (fun s => s.ticker ∈ scanSet)
  let opps ← scanLoop prefs stocks []
  pure (sortScoreDesc opps)

/-- `find_top_opportunities` (dip_detector.py lines 122-129). -/
def find_top_opportunities (table : List StocksCache) (prefs : UserPreferences)
    (limit : ℕ) : Except PyErr (List Opportunity) :=
  (find_opportunities table prefs).map (fun l => l.take limit)

/-! ## Alert dedup and the realtime tick (app/services/scheduler.py) -/

/-- Calendar day (UTC) of a timestamp in minutes: `datetime.date()` buckets
timestamps into 1440-minute days. -/
def dayOf (t : ℤ) : ℤ := t.fdiv 1440

/-- The query `db.query(Alert).filter(user_id, ticker).order_by(sent_at.desc())
.first()` (scheduler.py lines 92-100): the matching record with the greatest
`sent_at` (the order among records with equal `sent_at` is unspecified by the
database; the first inserted is returned here — the dedup comparison depends
only on the value of `sent_at`).  `laterAlert` is the max-accumulator of that
selection. -/
def laterAlert (best : Option Alert) (a : Alert) : Option Alert :=
  match best with
  | none => some a
  | some b => if b.sent_at < a.sent_at then some a else some b

def mostRecentAlert (alerts : List Alert) (uid : ℕ) (ticker : String) : Option Alert :=
  (alerts.filter (fun a => a.user_id == uid && a.ticker == ticker)).foldl laterAlert none

/-- The dedup test of scheduler.py line 102: a most recent alert record exists
for the pair and its calendar date equals today. -/
def alreadySentToday (alerts : List Alert) (uid : ℕ) (ticker : String) (now : ℤ) : Bool :=
  match mostRecentAlert alerts uid ticker with
  | some a => dayOf a.sent_at == dayOf now
  | none => false

/-- Outcome of an alert-emitting loop: the (user id, ticker) messages emitted,
in order, and the resulting alerts table. -/
structure TickOutcome where
  sent : List (ℕ × String)
  alerts : List Alert
deriving DecidableEq

/-- The per-opportunity loop of `scan_and_alert_realtime` (scheduler.py lines
89-117), given the opportunity list returned by the scan for one user: skip if
already alerted today for the ticker, otherwise send and append one Alert
record (committed before the next opportunity is examined; the SMS service
returns None on transport failure rather than raising, so the record write is
unconditional). -/
def realtimeOppLoop (now : ℤ) (uid : ℕ) : List Alert → List Opportunity → TickOutcome
  | alerts, [] => ⟨[], alerts⟩
  | alerts, opp :: rest =>
    if alreadySentToday alerts uid opp.stock.ticker now then
      realtimeOppLoop now uid alerts rest
    else
      let a : Alert := ⟨uid, opp.stock.ticker, opp.score, now⟩
      let out := realtimeOppLoop now uid (alerts ++ [a]) rest
      ⟨(uid, opp.stock.ticker) :: out.sent, out.alerts⟩

/-! ## The periodic market-scan trigger (app/api/cron.py) -/

/-- The users `run_market_scan` processes (cron.py lines 45-57): the query
joins `User.preferences` (so a preferences row must exist) and filters on
`is_active` only; the loop body then skips users whose preferences are missing
or paused.  No alert-frequency condition appears anywhere. -/
def marketScanProcessedUsers (users : List User) : List User :=
  (users.filter (fun u => u.is_active && u.preferences.isSome)).filter
    (fun u =>
      match u.preferences with
      | none => false
      | some p => !p.is_paused)

/-- Accumulated effects of the user loop of `run_market_scan`. -/
structure ScanState where
  alerts : List Alert
  sent : List (String × String)
  alerts_sent : ℕ
deriving DecidableEq

/-- The per-user body of `run_market_scan` (cron.py lines 54-93), given that
scan results of that user: skip when paused or when no opportunity has
`drop_from_high >= 0.10`; otherwise send one alert for the top significant
opportunity and append one Alert record.  No Alert record is ever read:
the function performs no dedup lookup. -/
def marketScanUserStep (now : ℤ) (u : User) (opps : List Opportunity)
    (st : ScanState) : ScanState :=
  match u.preferences with
  | none => st
  | some p =>
    if p.is_paused then st
    else if opps.isEmpty then st
    else
      match opps.filter (fun o => o.drop_from_high ≥ 10/100) with
      | [] => st
      | opp :: _ =>
        { alerts := st.alerts ++ [⟨u.id, opp.stock.ticker, opp.score, now⟩],
          sent := st.sent ++ [(u.phone_number, opp.stock.ticker)],
          alerts_sent := st.alerts_sent + 1 }

/-! ## Refresh policy (app/services/market_data.py) -/

/-- The payload of a successful provider fetch (`get_stock_data`, market_data.py
lines 15-55).  A raised exception and a payload with no usable price both yield
`none`; field `pe` embeds the source key `pe_ratio`, `pb` embeds `pb_ratio`. -/
structure ProviderData where
  name : Option String
  sector : Option String
  industry : Option String
  price : Option ℚ
  weekly_change : Option ℚ
  pe : Option ℚ
  pb : Option ℚ
  roe : Option ℚ
  debt_to_equity : Option ℚ
  profit_margin : Option ℚ
  fifty_two_week_high : Option ℚ
  fifty_two_week_low : Option ℚ
deriving DecidableEq

/-- A fresh `StocksCache(ticker=ticker)` row before its fields are assigned
(market_data.py line 85); every data field is immediately overwritten by
`update_stock_cache`. -/
def blankRow (t : String) : StocksCache :=
  ⟨t, none, none, none, none, none, none, none, none, none, none, none, none, 0⟩

/-- Primary-key lookup in the stocks_cache table. -/
def rowOf (cache : List StocksCache) (t : String) : Option StocksCache :=
  cache.find? (fun s => s.ticker == t)

/-- Write-back of a refreshed row: replace the row found by primary key, or
append a new one (`db.add` + `db.commit`, market_data.py lines 84-104). -/
def upsertRow : List StocksCache → String → StocksCache → List StocksCache
  | [], _, row => [row]
  | s :: rest, t, row => if s.ticker == t then row :: rest else s :: upsertRow rest t row

/-- `update_stock_cache` (market_data.py lines 74-106): on a failed fetch,
return None with no cache mutation; otherwise upsert the row with every field
assigned from the payload and `last_updated = utcnow`. -/
def update_stock_cache (fetch : String → Option ProviderData) (now : ℤ)
    (cache : List StocksCache) (t : String) : List StocksCache × Option StocksCache :=
  match fetch t with
  | none => (cache, none)
  | some d =>
    let base := (rowOf cache t).getD (blankRow t)
    let row : StocksCache :=
      { ticker := base.ticker, company_name := d.name, sector := d.sector,
        industry := d.industry, last_price := d.price,
        weekly_change := d.weekly_change, pe := d.pe, pb := d.pb, roe := d.roe,
        debt_to_equity := d.debt_to_equity, profit_margin := d.profit_margin,
        fifty_two_week_high := d.fifty_two_week_high,
        fifty_two_week_low := d.fifty_two_week_low, last_updated := now }
    (upsertRow cache t row, some row)

/-- The staleness test of market_data.py line 121: missing row, or
`last_updated < now - timedelta(hours=max_age_hours)` (timestamps in minutes). -/
def isStaleRow (now maxAgeHours : ℤ) (cache : List StocksCache) (t : String) : Bool :=
  match rowOf cache t with
  | none => true
  | some s => s.last_updated < now - 60 * maxAgeHours

/-- Result of a refresh run: final cache, rows actually refreshed, and the
number of provider calls made. -/
structure RefreshOutcome where
  cache : List StocksCache
  updated : List StocksCache
  calls : ℕ
deriving DecidableEq

/-- `refresh_stale_stocks` (market_data.py lines 108-126): sequentially, for
each requested ticker, refresh it if its snapshot is missing or stale; each
refresh makes exactly one provider call, and a failed call contributes no row
to `updated` and leaves the cache untouched. -/
def refresh_stale_stocks (fetch : String → Option ProviderData) (now maxAgeHours : ℤ) :
    List StocksCache → List String → RefreshOutcome
  | cache, [] => ⟨cache, [], 0⟩
  | cache, t :: rest =>
    if isStaleRow now maxAgeHours cache t then
      let u := update_stock_cache fetch now cache t
      let out := refresh_stale_stocks fetch now maxAgeHours u.1 rest
      ⟨out.cache,
        (match u.2 with
         | some r => r :: out.updated
         | none => out.updated),
        out.calls + 1⟩
    else
      refresh_stale_stocks fetch now maxAgeHours cache rest

/-! ## The Eligibility Filter as the specification words it

Two definitions written from the claim text rather than from the source, for
comparison with `meets_criteria` above. -/

/-- The Eligibility Filter exactly as claim C2 states it: rule 1 fires only
when the last price or the 52-week high is absent; rules 2-5 in order, first
failing rule short-circuiting. -/
def meetsCriteriaClaimC2 (stock : StocksCache) (prefs : UserPreferences) : Bool × ℚ :=
  match stock.last_price, stock.fifty_two_week_high with
  | some price, some high =>
    let drop := (high - price) / high
    if drop < prefs.min_drop_threshold then (false, drop)
    else if stock.pe.any (fun pe => pe > prefs.max_pe) then (false, drop)
    else if stock.debt_to_equity.any (fun de => de > prefs.max_debt_equity) then (false, drop)
    else if stock.roe.any (fun r => r < prefs.min_roe) then (false, drop)
    else (true, drop)
  | _, _ => (false, 0)

/-- Claim C2 amended: rule 1 fires when the last price or the 52-week high is
absent or equal to zero; rules 2-5 unchanged. -/
def meetsCriteriaAmendedC2 (stock : StocksCache) (prefs : UserPreferences) : Bool × ℚ :=
  match stock.last_price, stock.fifty_two_week_high with
  | some price, some high =>
    if price = 0 ∨ high = 0 then (false, 0)
    else
      let drop := (high - price) / high
      if drop < prefs.min_drop_threshold then (false, drop)
      else if stock.pe.any (fun pe => pe > prefs.max_pe) then (false, drop)
      else if stock.debt_to_equity.any (fun de => de > prefs.max_debt_equity) then (false, drop)
      else if stock.roe.any (fun r => r < prefs.min_roe) then (false, drop)
      else (true, drop)
  | _, _ => (false, 0)

/-! ## Concrete fixtures used by witnesses and counterexamples -/

/-- The UserPreferences column defaults (app/models.py lines 63-80). -/
def defaultPrefs : UserPreferences :=
  { alert_frequency := AlertFrequency.daily, favorite_industries := [],
    is_paused := false, investment_types := ["Stocks", "ETFs", "Commodities", "Crypto"],
    min_drop_threshold := 10/100, max_pe := 25, max_debt_equity := 3/2,
    min_roe := 15/100, prefer_stocks_over_etfs := true, etf_min_drop := 15/100 }

/-- Preferences restricted to the crypto universe (a small scan set). -/
def cryptoPrefs : UserPreferences :=
  { defaultPrefs with investment_types := ["Crypto"] }

/-- A cached snapshot for a ticker inside the crypto scan universe. -/
def btcSnapshot : StocksCache :=
  { blankRow "BTC-USD" with
    last_price := some 60000, fifty_two_week_high := some 100000 }

/-- A snapshot with a 52-week high and no other metrics; the price is filled in
per use. -/
def demoStock : StocksCache :=
  { blankRow "AAPL" with fifty_two_week_high := some 100 }

/-- A snapshot whose last price is present but exactly zero. -/
def zeroPriceStock : StocksCache :=
  { demoStock with last_price := some 0 }

/-- The spec §8 scenario snapshot: price 70, high 100, P/E 8, D/E 0.4,
ROE 0.28, margin 0.22. -/
def scenarioStock : StocksCache :=
  { blankRow "AAPL" with
    last_price := some 70, fifty_two_week_high := some 100,
    pe := some 8, debt_to_equity := some (4/10), roe := some (28/100),
    profit_margin := some (22/100) }

/-- An opportunity on `demoStock` at price 70 (drop 0.30, score 30). -/
def demoOpp : Opportunity :=
  { stock := { demoStock with last_price := some 70 }
    score := 30
    drop_from_high := 30/100
    reasons := [Reason.dropSignificant (30/100)] }

/-- An opportunity whose drop clears the fixed 10 percent significance bar of
run_market_scan. -/
def bigDropOpp : Opportunity :=
  { stock := { demoStock with last_price := some 80 }
    score := 15
    drop_from_high := 20/100
    reasons := [Reason.dropGood (20/100)] }

/-- An active, non-paused user in the corrections band. -/
def correctionsUser : User :=
  ⟨7, "+15550000001", true, some { defaultPrefs with alert_frequency := AlertFrequency.corrections }⟩

/-- An active, non-paused user in the realtime band. -/
def realtimeUser : User :=
  ⟨3, "+15550000002", true, some { defaultPrefs with alert_frequency := AlertFrequency.realtime }⟩

/-- A provider stub that always succeeds, used by the C7 witness. -/
def demoFetch : String → Option ProviderData :=
  fun _ => some ⟨none, none, none, some 50, none, none, none, none, none, none, some 100, none⟩

/-- A provider stub that always fails, used by the C8 witness. -/
def failFetch : String → Option ProviderData := fun _ => none

/-! ## Lemmas about the stable descending sort -/

theorem mem_insertScoreDesc {c a : Opportunity} {l : List Opportunity} :
    c ∈ insertScoreDesc a l ↔ c = a ∨ c ∈ l := by
  induction l with
  | nil => simp [insertScoreDesc]
  | cons b l ih =>
    by_cases hba : b.score > a.score
    · simp only [insertScoreDesc, if_pos hba, List.mem_cons, ih]
      tauto
    · simp only [insertScoreDesc, if_neg hba, List.mem_cons]

theorem pairwise_insertScoreDesc (a : Opportunity) (l : List Opportunity)
    (h : l.Pairwise (fun x y => y.score ≤ x.score)) :
    (insertScoreDesc a l).Pairwise (fun x y => y.score ≤ x.score) := by
  induction l with
  | nil => simp [insertScoreDesc]
  | cons b l ih =>
    rw [List.pairwise_cons] at h
    obtain ⟨hb, hl⟩ := h
    by_cases hba : b.score > a.score
    · simp only [insertScoreDesc, if_pos hba]
      refine List.Pairwise.cons ?_ (ih hl)
      intro c hc
      rcases mem_insertScoreDesc.mp hc with rfl | hcl
      · exact le_of_lt hba
      · exact hb c hcl
    · simp only [insertScoreDesc, if_neg hba]
      refine List.Pairwise.cons ?_ (List.Pairwise.cons hb hl)
      intro c hc
      rcases List.mem_cons.mp hc with rfl | hcl
      · exact le_of_not_lt hba
      · exact le_trans (hb c hcl) (le_of_not_lt hba)

theorem perm_insertScoreDesc (a : Opportunity) (l : List Opportunity) :
    List.Perm (insertScoreDesc a l) (a :: l) := by
  induction l with
  | nil => exact List.Perm.refl [a]
  | cons b l ih =>
    by_cases hba : b.score > a.score
    · simp only [insertScoreDesc, if_pos hba]
      exact (ih.cons b).trans (List.Perm.swap a b l)
    · simp only [insertScoreDesc, if_neg hba]
      exact List.Perm.refl _

theorem sortScoreDesc_pairwise (l : List Opportunity) :
    (sortScoreDesc l).Pairwise (fun x y => y.score ≤ x.score) := by
  induction l with
  | nil => simp [sortScoreDesc]
  | cons a l ih => exact pairwise_insertScoreDesc a (sortScoreDesc l) ih

theorem sortScoreDesc_perm (l : List Opportunity) :
    List.Perm (sortScoreDesc l) l := by
  induction l with
  | nil => exact List.Perm.refl []
  | cons a l ih => exact (perm_insertScoreDesc a (sortScoreDesc l)).trans (ih.cons a)

theorem filter_insertScoreDesc (q : ℚ) (a : Opportunity) (l : List Opportunity) :
    (insertScoreDesc a l).filter (fun o => o.score == q) =
      if a.score == q then a :: l.filter (fun o => o.score == q)
      else l.filter (fun o => o.score == q) := by
  induction l with
  | nil => by_cases haq : a.score = q <;> simp [insertScoreDesc, haq]
  | cons b l ih =>
    by_cases hba : b.score > a.score
    · simp only [insertScoreDesc, if_pos hba, List.filter_cons]
      by_cases hbq : b.score = q
      · have haq : ¬a.score = q := by
          intro h
          rw [h, hbq] at hba
          exact lt_irrefl q hba
        simp [hbq, haq, ih]
      · simp [hbq, ih]
    · simp only [insertScoreDesc, if_neg hba, List.filter_cons]

theorem sortScoreDesc_filter (l : List Opportunity) :
    ∀ q : ℚ, (sortScoreDesc l).filter (fun o => o.score == q) =
      l.filter (fun o => o.score == q) := by
  intro q
  induction l with
  | nil => simp [sortScoreDesc]
  | cons a l ih =>
    simp only [sortScoreDesc, filter_insertScoreDesc, List.filter_cons, ih]

/-! ## Claims C1, C2, C3 -/

/-- Claim C1 (code bug): the opportunity scan does not complete and applies no
weekly-drop freshness sub-filter.  `find_opportunities` calls `meets_criteria`
with three positional arguments — stock, prefs and the configured minimum
weekly drop (dip_detector.py line 95) — but `meets_criteria` is defined with
two parameters and no weekly-change logic at all (stock_scorer.py lines
101-128), so the scan raises TypeError as soon as a single cached snapshot
falls inside the scan universe; here evaluated on one cached crypto snapshot
under crypto-only preferences. -/
theorem find_opportunities_scan_aborts :
    find_opportunities [btcSnapshot] cryptoPrefs = Except.error PyErr.typeError := rfl

/-- Claim C2 counterexample: a snapshot whose last price is present but equal
to 0.0, with 52-week high 100.  The rules exactly as the claim states them
(rule 1 fires only on absent fields) compute drop = (100 - 0)/100 = 1 and
pass; `meets_criteria` instead returns (false, 0.0) because the Python guard
`not stock.last_price` also fires on a present 0.0. -/
theorem meets_criteria_zero_price_diverges :
    meets_criteria zeroPriceStock defaultPrefs = (false, 0) ∧
    meetsCriteriaClaimC2 zeroPriceStock defaultPrefs = (true, 1) ∧
    meets_criteria zeroPriceStock defaultPrefs ≠
      meetsCriteriaClaimC2 zeroPriceStock defaultPrefs := by
  refine ⟨by decide, ?_, ?_⟩ <;>
    norm_num [meets_criteria, meetsCriteriaClaimC2, zeroPriceStock, demoStock,
      defaultPrefs, blankRow, pyTruthy]

/-- Claim C2 (amended): `meets_criteria` applies the claimed rules in order
with the first failing rule short-circuiting, except that rule 1 returns
(false, 0.0) when the last price or the 52-week high is absent **or zero**;
rules 2-5 and the treatment of absent optional metrics are exactly as claimed,
and a snapshot with no price and no 52-week high still never passes. -/
theorem meets_criteria_eq_amended (stock : StocksCache) (prefs : UserPreferences) :
    meets_criteria stock prefs = meetsCriteriaAmendedC2 stock prefs := by
  rcases hp : stock.last_price with _ | p <;>
    rcases hh : stock.fifty_two_week_high with _ | h <;>
      simp only [meets_criteria, meetsCriteriaAmendedC2, pyTruthy, hp, hh]
  · simp
  · simp
  · simp
  · by_cases hp0 : p = 0
    · simp [hp0]
    · by_cases hh0 : h = 0
      · simp [hh0]
      · simp [hp0, hh0]

/-- Claim C3: whatever opportunity list the scan loop collects (in scan order),
`find_top_opportunities` returns the first `limit` elements of its stable
descending sort: the output is sorted by score descending, is a permutation of
the collected list, and opportunities of equal score keep their original scan
order. -/
theorem find_top_sorted_stable (table : List StocksCache) (prefs : UserPreferences)
    (limit : ℕ) (opps : List Opportunity)
    (h : scanLoop prefs (table.filter (fun s => s.ticker ∈ tickers_to_scan prefs)) [] =
      Except.ok opps) :
    find_top_opportunities table prefs limit = Except.ok ((sortScoreDesc opps).take limit) ∧
    (sortScoreDesc opps).Pairwise (fun x y => y.score ≤ x.score) ∧
    List.Perm (sortScoreDesc opps) opps ∧
    ∀ q : ℚ, (sortScoreDesc opps).filter (fun o => o.score == q) =
      opps.filter (fun o => o.score == q) := by
  refine ⟨?_, sortScoreDesc_pairwise opps, sortScoreDesc_perm opps, sortScoreDesc_filter opps⟩
  simp only [find_top_opportunities, find_opportunities, bind, Except.bind, h]
  rfl

/-- Witness for C3 at a concrete input: the empty snapshot table scans to the
empty collection. -/
theorem find_top_sorted_stable_witness :
    find_top_opportunities [] defaultPrefs 5 = Except.ok ((sortScoreDesc []).take 5) ∧
    (sortScoreDesc []).Pairwise (fun x y => y.score ≤ x.score) ∧
    List.Perm (sortScoreDesc []) [] ∧
    ∀ q : ℚ, (sortScoreDesc []).filter (fun o => o.score == q) =
      ([] : List Opportunity).filter (fun o => o.score == q) :=
  find_top_sorted_stable [] defaultPrefs 5 [] rfl

/-! ## Lemmas about the most-recent-alert selection -/

theorem foldl_laterAlert_isSome (l : List Alert) (acc : Option Alert) (h : acc.isSome) :
    (l.foldl laterAlert acc).isSome := by
  induction l generalizing acc with
  | nil => exact h
  | cons b l ih =>
    apply ih
    rcases acc with _ | c
    · simp [laterAlert]
    · simp only [laterAlert]
      split <;> simp

theorem foldl_laterAlert_mem (l : List Alert) (acc : Option Alert) (r : Alert)
    (h : l.foldl laterAlert acc = some r) : acc = some r ∨ r ∈ l := by
  induction l generalizing acc with
  | nil => exact Or.inl h
  | cons b l ih =>
    rcases ih (laterAlert acc b) h with hstep | hmem
    · rcases acc with _ | c
      · simp only [laterAlert] at hstep
        right
        rw [List.mem_cons]
        left
        exact (Option.some_inj.mp hstep).symm
      · simp only [laterAlert] at hstep
        by_cases hca : c.sent_at < b.sent_at
        · rw [if_pos hca] at hstep
          right
          rw [List.mem_cons]
          left
          exact (Option.some_inj.mp hstep).symm
        · rw [if_neg hca] at hstep
          exact Or.inl hstep
    · right
      exact List.mem_cons_of_mem b hmem

theorem foldl_laterAlert_ge (l : List Alert) (acc : Option Alert) (r : Alert)
    (h : l.foldl laterAlert acc = some r) :
    (∀ a ∈ l, a.sent_at ≤ r.sent_at) ∧ (∀ b, acc = some b → b.sent_at ≤ r.sent_at) := by
  induction l generalizing acc with
  | nil =>
    refine ⟨by simp, ?_⟩
    intro b hb
    rw [hb] at h
    rw [Option.some_inj.mp h]
  | cons a l ih =>
    obtain ⟨h1, h2⟩ := ih (laterAlert acc a) h
    have hac : a.sent_at ≤ r.sent_at ∧ ∀ b, acc = some b → b.sent_at ≤ r.sent_at := by
      rcases acc with _ | c
      · refine ⟨h2 a (by simp [laterAlert]), ?_⟩
        intro b hb
        cases hb
      · by_cases hca : c.sent_at < a.sent_at
        · have har : a.sent_at ≤ r.sent_at := h2 a (by simp [laterAlert, hca])
          refine ⟨har, ?_⟩
          intro b hb
          cases hb
          exact le_trans (le_of_lt hca) har
        · have hcr : c.sent_at ≤ r.sent_at := h2 c (by simp [laterAlert, hca])
          refine ⟨le_trans (le_of_not_lt hca) hcr, ?_⟩
          intro b hb
          cases hb
          exact hcr
    refine ⟨?_, hac.2⟩
    intro x hx
    rcases List.mem_cons.mp hx with rfl | hxl
    · exact hac.1
    · exact h1 x hxl

theorem mostRecentAlert_spec {alerts : List Alert} {uid : ℕ} {t : String} {r : Alert}
    (h : mostRecentAlert alerts uid t = some r) :
    r ∈ alerts ∧ r.user_id = uid ∧ r.ticker = t ∧
      ∀ b ∈ alerts, b.user_id = uid → b.ticker = t → b.sent_at ≤ r.sent_at := by
  unfold mostRecentAlert at h
  rcases foldl_laterAlert_mem _ _ _ h with habs | hmem
  · cases habs
  · have hflt := List.mem_filter.mp hmem
    obtain ⟨hma, hcond⟩ := hflt
    simp only [Bool.and_eq_true, beq_iff_eq] at hcond
    refine ⟨hma, hcond.1, hcond.2, ?_⟩
    intro b hb hbu hbt
    exact (foldl_laterAlert_ge _ _ _ h).1 b
      (List.mem_filter.mpr ⟨hb, by simp [hbu, hbt]⟩)

theorem mostRecentAlert_isSome_of_mem (alerts : List Alert) (b : Alert) (uid : ℕ)
    (t : String) (hb : b ∈ alerts) (hu : b.user_id = uid) (ht : b.ticker = t) :
    ∃ r, mostRecentAlert alerts uid t = some r := by
  have hbf : b ∈ alerts.filter (fun a => a.user_id == uid && a.ticker == t) :=
    List.mem_filter.mpr ⟨hb, by simp [hu, ht]⟩
  unfold mostRecentAlert
  rcases hfil : alerts.filter (fun a => a.user_id == uid && a.ticker == t) with _ | ⟨c, cs⟩
  · rw [hfil] at hbf
    cases hbf
  · have hs : (cs.foldl laterAlert (laterAlert none c)).isSome :=
      foldl_laterAlert_isSome _ _ (by simp [laterAlert])
    rw [hfil, List.foldl_cons]
    exact Option.isSome_iff_exists.mp hs

/-! ## Claims C4, C5, C6 -/

/-- Claim C4: per-day realtime dedup.  If the most recent Alert record for
(user, ticker) is dated today, processing that opportunity in a realtime tick
emits no message and appends no record; on any tick of the next calendar day
(all existing records being dated no later than today) the same opportunity is
sent and exactly one record is appended. -/
theorem realtime_dedup_daily (uid : ℕ) (opp : Opportunity) (alerts : List Alert) (now : ℤ) :
    ((∃ a, mostRecentAlert alerts uid opp.stock.ticker = some a ∧
        dayOf a.sent_at = dayOf now) →
      realtimeOppLoop now uid alerts [opp] = ⟨[], alerts⟩) ∧
    (∀ now2 : ℤ, (∀ a ∈ alerts, dayOf a.sent_at ≤ dayOf now) →
      dayOf now2 = dayOf now + 1 →
      realtimeOppLoop now2 uid alerts [opp] =
        ⟨[(uid, opp.stock.ticker)],
          alerts ++ [⟨uid, opp.stock.ticker, opp.score, now2⟩]⟩) := by
  constructor
  · rintro ⟨a, ha, hd⟩
    have hsent : alreadySentToday alerts uid opp.stock.ticker now = true := by
      unfold alreadySentToday
      rw [ha]
      simp [hd]
    simp [realtimeOppLoop, hsent]
  · intro now2 hb hd
    have hsent : alreadySentToday alerts uid opp.stock.ticker now2 = false := by
      unfold alreadySentToday
      rcases hma : mostRecentAlert alerts uid opp.stock.ticker with _ | a
      · rfl
      · obtain ⟨hmem, -, -, -⟩ := mostRecentAlert_spec hma
        have hle : dayOf a.sent_at ≤ dayOf now := hb a hmem
        simp only [beq_eq_false_iff_ne, ne_eq]
        omega
    simp [realtimeOppLoop, hsent]

/-- Witness for C4: a user alerted for AAPL at minute 100 (day 0) is skipped by
a tick at minute 200 (same day) and alerted again by a tick at minute 1500
(day 1). -/
theorem realtime_dedup_daily_witness :
    realtimeOppLoop 200 1 [⟨1, "AAPL", 30, 100⟩] [demoOpp] =
      ⟨[], [⟨1, "AAPL", 30, 100⟩]⟩ ∧
    realtimeOppLoop 1500 1 [⟨1, "AAPL", 30, 100⟩] [demoOpp] =
      ⟨[(1, demoOpp.stock.ticker)],
        [⟨1, "AAPL", 30, 100⟩] ++ [⟨1, demoOpp.stock.ticker, demoOpp.score, 1500⟩]⟩ :=
  ⟨(realtime_dedup_daily 1 demoOpp [⟨1, "AAPL", 30, 100⟩] 200).1
      ⟨⟨1, "AAPL", 30, 100⟩, by decide, by decide⟩,
   (realtime_dedup_daily 1 demoOpp [⟨1, "AAPL", 30, 100⟩] 200).2 1500
      (by decide) (by decide)⟩

/-- Claim C5 counterexample: the corrections-band trigger `run_market_scan`
performs no dedup lookup, so re-running it the same day against the state
produced by the first run re-sends and appends a second Alert record for the
same (user, ticker) pair instead of no-opping. -/
theorem market_scan_rerun_resends :
    (marketScanUserStep 100 correctionsUser [bigDropOpp] ⟨[], [], 0⟩).sent.length = 1 ∧
    (marketScanUserStep 100 correctionsUser [bigDropOpp] ⟨[], [], 0⟩).alerts.length = 1 ∧
    (marketScanUserStep 100 correctionsUser [bigDropOpp]
        (marketScanUserStep 100 correctionsUser [bigDropOpp] ⟨[], [], 0⟩)).sent.length = 2 ∧
    (marketScanUserStep 100 correctionsUser [bigDropOpp]
        (marketScanUserStep 100 correctionsUser [bigDropOpp] ⟨[], [], 0⟩)).alerts.length = 2 := by
  norm_num [marketScanUserStep, correctionsUser, bigDropOpp, demoStock, blankRow, defaultPrefs]

/-- Claim C5 (amended): only the realtime trigger is idempotent on re-run
within the same day — its second run finds the same-day dedup record written
(or already found) by the first run and emits no message and appends no
record; the corrections-scan trigger performs no dedup lookup and re-sends on
a same-day re-run (see the counterexample). -/
theorem realtime_rerun_noop (now now2 : ℤ) (uid : ℕ) (opp : Opportunity)
    (alerts : List Alert) (hpast : ∀ a ∈ alerts, a.sent_at ≤ now)
    (hd : dayOf now2 = dayOf now) :
    realtimeOppLoop now2 uid (realtimeOppLoop now uid alerts [opp]).alerts [opp] =
      ⟨[], (realtimeOppLoop now uid alerts [opp]).alerts⟩ := by
  by_cases hsent : alreadySentToday alerts uid opp.stock.ticker now = true
  · have h1 : realtimeOppLoop now uid alerts [opp] = ⟨[], alerts⟩ := by
      simp [realtimeOppLoop, hsent]
    rw [h1]
    have hsent2 : alreadySentToday alerts uid opp.stock.ticker now2 = true := by
      unfold alreadySentToday at hsent ⊢
      rcases hma : mostRecentAlert alerts uid opp.stock.ticker with _ | a
      · rw [hma] at hsent
        cases hsent
      · rw [hma] at hsent
        simp only [beq_iff_eq] at hsent ⊢
        omega
    simp [realtimeOppLoop, hsent2]
  · have hsent0 : alreadySentToday alerts uid opp.stock.ticker now = false :=
      Bool.eq_false_iff.mpr hsent
    have h1 : realtimeOppLoop now uid alerts [opp] =
        ⟨[(uid, opp.stock.ticker)],
          alerts ++ [⟨uid, opp.stock.ticker, opp.score, now⟩]⟩ := by
      simp [realtimeOppLoop, hsent0]
    rw [h1]
    have hsent2 : alreadySentToday (alerts ++ [⟨uid, opp.stock.ticker, opp.score, now⟩])
        uid opp.stock.ticker now2 = true := by
      obtain ⟨r, hr⟩ := mostRecentAlert_isSome_of_mem
        (alerts ++ [⟨uid, opp.stock.ticker, opp.score, now⟩])
        ⟨uid, opp.stock.ticker, opp.score, now⟩ uid opp.stock.ticker
        (by simp) rfl rfl
      obtain ⟨hmem, -, -, hmax⟩ := mostRecentAlert_spec hr
      have hr_le : r.sent_at ≤ now := by
        rcases List.mem_append.mp hmem with hin | hin
        · exact hpast r hin
        · simp only [List.mem_singleton] at hin
          rw [hin]
      have hr_ge : now ≤ r.sent_at :=
        hmax ⟨uid, opp.stock.ticker, opp.score, now⟩ (by simp) rfl rfl
      have hr_eq : r.sent_at = now := le_antisymm hr_le hr_ge
      unfold alreadySentToday
      rw [hr]
      simp [hr_eq, hd]
    simp [realtimeOppLoop, hsent2]

/-- Witness for C5: first realtime run at minute 100 sends for the demo
opportunity; the re-run at minute 200, same day, changes nothing. -/
theorem realtime_rerun_noop_witness :
    realtimeOppLoop 200 1 (realtimeOppLoop 100 1 [] [demoOpp]).alerts [demoOpp] =
      ⟨[], (realtimeOppLoop 100 1 [] [demoOpp]).alerts⟩ :=
  realtime_rerun_noop 100 200 1 demoOpp [] (by simp) (by decide)

/-- Claim C6 counterexample: an active, non-paused user whose band is realtime
is selected and processed by `run_market_scan` and receives a message from
this trigger (given a qualifying opportunity), contradicting the claim that
only corrections-only users are processed. -/
theorem market_scan_processes_realtime_user :
    marketScanProcessedUsers [realtimeUser] = [realtimeUser] ∧
    (marketScanUserStep 100 realtimeUser [bigDropOpp] ⟨[], [], 0⟩).sent =
      [("+15550000002", "AAPL")] := by
  constructor
  · norm_num [marketScanProcessedUsers, realtimeUser, defaultPrefs, List.filter]
  · norm_num [marketScanUserStep, realtimeUser, defaultPrefs, bigDropOpp, demoStock, blankRow]

/-- Claim C6 (amended): `run_market_scan` processes exactly the active users
that have a preferences row and are not paused, with no condition on the
alert-frequency band: users of every band (realtime, daily, weekly,
corrections-only alike) are processed by this trigger. -/
theorem market_scan_selection (users : List User) (u : User) :
    u ∈ marketScanProcessedUsers users ↔
      u ∈ users ∧ u.is_active = true ∧
        ∃ p, u.preferences = some p ∧ p.is_paused = false := by
  rcases hup : u.preferences with _ | p
  · simp [marketScanProcessedUsers, List.mem_filter, hup]
  · simp only [marketScanProcessedUsers, List.mem_filter, hup, Bool.and_eq_true,
      Option.isSome_some, and_true, Option.some_inj]
    constructor
    · rintro ⟨⟨hm, hact⟩, hpause⟩
      exact ⟨hm, hact, p, rfl, by simpa using hpause⟩
    · rintro ⟨hm, hact, q, rfl, hq⟩
      exact ⟨⟨hm, hact⟩, by simpa using hq⟩

/-! ## Lemmas about the refresh policy -/

theorem rowOf_ticker {cache : List StocksCache} {t : String} {s : StocksCache}
    (h : rowOf cache t = some s) : s.ticker = t := by
  have := List.find?_some h
  simpa using this

theorem rowOf_cons_pos (s : StocksCache) (rest : List StocksCache) (t : String)
    (h : s.ticker = t) : rowOf (s :: rest) t = some s :=
  List.find?_cons_of_pos rest (by simp [h])

theorem rowOf_cons_neg (s : StocksCache) (rest : List StocksCache) (t : String)
    (h : ¬s.ticker = t) : rowOf (s :: rest) t = rowOf rest t :=
  List.find?_cons_of_neg rest (by simp [h])

theorem upsertRow_cons_pos (s : StocksCache) (rest : List StocksCache) (t : String)
    (row : StocksCache) (h : s.ticker = t) :
    upsertRow (s :: rest) t row = row :: rest := by
  simp [upsertRow, h]

theorem upsertRow_cons_neg (s : StocksCache) (rest : List StocksCache) (t : String)
    (row : StocksCache) (h : ¬s.ticker = t) :
    upsertRow (s :: rest) t row = s :: upsertRow rest t row := by
  simp [upsertRow, h]

theorem rowOf_upsert_self (cache : List StocksCache) (t : String) (row : StocksCache)
    (hrow : row.ticker = t) : rowOf (upsertRow cache t row) t = some row := by
  induction cache with
  | nil => exact rowOf_cons_pos row [] t hrow
  | cons s rest ih =>
    by_cases hs : s.ticker = t
    · rw [upsertRow_cons_pos s rest t row hs]
      exact rowOf_cons_pos row rest t hrow
    · rw [upsertRow_cons_neg s rest t row hs, rowOf_cons_neg s _ t hs]
      exact ih

theorem rowOf_upsert_ne (cache : List StocksCache) (t t2 : String) (row : StocksCache)
    (hne : t2 ≠ t) (hrow : row.ticker = t) :
    rowOf (upsertRow cache t row) t2 = rowOf cache t2 := by
  have hrow2 : ¬row.ticker = t2 := by rw [hrow]; exact Ne.symm hne
  induction cache with
  | nil => exact rowOf_cons_neg row [] t2 hrow2
  | cons s rest ih =>
    by_cases hs : s.ticker = t
    · have hs2 : ¬s.ticker = t2 := by rw [hs]; exact Ne.symm hne
      rw [upsertRow_cons_pos s rest t row hs, rowOf_cons_neg row rest t2 hrow2,
        rowOf_cons_neg s rest t2 hs2]
    · rw [upsertRow_cons_neg s rest t row hs]
      by_cases hs2 : s.ticker = t2
      · rw [rowOf_cons_pos s _ t2 hs2, rowOf_cons_pos s rest t2 hs2]
      · rw [rowOf_cons_neg s _ t2 hs2, rowOf_cons_neg s rest t2 hs2]
        exact ih

theorem update_fetch_none (fetch : String → Option ProviderData) (now : ℤ)
    (cache : List StocksCache) (t : String) (hf : fetch t = none) :
    update_stock_cache fetch now cache t = (cache, none) := by
  unfold update_stock_cache
  rw [hf]

theorem update_fetch_some (fetch : String → Option ProviderData) (now : ℤ)
    (cache : List StocksCache) (t : String) (d : ProviderData) (hf : fetch t = some d) :
    ∃ row, update_stock_cache fetch now cache t = (upsertRow cache t row, some row) ∧
      row.ticker = t ∧ row.last_updated = now := by
  unfold update_stock_cache
  rw [hf]
  refine ⟨_, rfl, ?_, rfl⟩
  rcases hro : rowOf cache t with _ | s
  · simp [hro, blankRow]
  · simp [hro, rowOf_ticker hro]

theorem update_rowOf_ne (fetch : String → Option ProviderData) (now : ℤ)
    (cache : List StocksCache) (t t2 : String) (hne : t2 ≠ t) :
    rowOf (update_stock_cache fetch now cache t).1 t2 = rowOf cache t2 := by
  rcases hf : fetch t with _ | d
  · rw [update_fetch_none fetch now cache t hf]
  · obtain ⟨row, heq, hticker, -⟩ := update_fetch_some fetch now cache t d hf
    rw [heq]
    exact rowOf_upsert_ne cache t t2 row hne hticker

theorem refresh_calls_le (fetch : String → Option ProviderData) (now maxAgeHours : ℤ) :
    ∀ (ts : List String) (cache : List StocksCache),
      (refresh_stale_stocks fetch now maxAgeHours cache ts).calls ≤ ts.length := by
  intro ts
  induction ts with
  | nil => intro cache; simp [refresh_stale_stocks]
  | cons t rest ih =>
    intro cache
    by_cases hstale : isStaleRow now maxAgeHours cache t = true
    · simp only [refresh_stale_stocks, if_pos hstale, List.length_cons]
      exact Nat.succ_le_succ (ih _)
    · simp only [refresh_stale_stocks, if_neg hstale, List.length_cons]
      exact le_trans (ih cache) (Nat.le_succ _)

theorem refresh_rowOf_not_mem (fetch : String → Option ProviderData) (now maxAgeHours : ℤ) :
    ∀ (ts : List String) (cache : List StocksCache) (t : String), t ∉ ts →
      rowOf (refresh_stale_stocks fetch now maxAgeHours cache ts).cache t = rowOf cache t := by
  intro ts
  induction ts with
  | nil => intro cache t _; rfl
  | cons t2 rest ih =>
    intro cache t ht
    have hne : t ≠ t2 := fun h => ht (h ▸ List.mem_cons_self t2 rest)
    have hrest : t ∉ rest := fun h => ht (List.mem_cons_of_mem t2 h)
    by_cases hstale : isStaleRow now maxAgeHours cache t2 = true
    · simp only [refresh_stale_stocks, if_pos hstale]
      rw [ih _ t hrest]
      exact update_rowOf_ne fetch now cache t2 t hne
    · simp only [refresh_stale_stocks, if_neg hstale]
      exact ih cache t hrest

theorem refresh_updated_spec (fetch : String → Option ProviderData) (now maxAgeHours : ℤ)
    (cache0 : List StocksCache) (hage : 0 ≤ maxAgeHours) :
    ∀ (ts : List String) (cache : List StocksCache),
      (∀ t2, rowOf cache t2 = rowOf cache0 t2 ∨
        ∃ r, rowOf cache t2 = some r ∧ r.last_updated = now) →
      ∀ r ∈ (refresh_stale_stocks fetch now maxAgeHours cache ts).updated,
        r.ticker ∈ ts ∧ isStaleRow now maxAgeHours cache0 r.ticker = true := by
  intro ts
  induction ts with
  | nil => intro cache _ r hr; cases hr
  | cons t rest ih =>
    intro cache hinv r hr
    by_cases hstale : isStaleRow now maxAgeHours cache t = true
    · simp only [refresh_stale_stocks, if_pos hstale] at hr
      rcases hf : fetch t with _ | d
      · rw [update_fetch_none fetch now cache t hf] at hr
        obtain ⟨h1, h2⟩ := ih cache hinv r hr
        exact ⟨List.mem_cons_of_mem t h1, h2⟩
      · obtain ⟨row, heq, hticker, hupd⟩ := update_fetch_some fetch now cache t d hf
        rw [heq] at hr
        have hinv2 : ∀ t2, rowOf (upsertRow cache t row) t2 = rowOf cache0 t2 ∨
            ∃ r2, rowOf (upsertRow cache t row) t2 = some r2 ∧ r2.last_updated = now := by
          intro t2
          by_cases h2t : t2 = t
          · right
            subst h2t
            exact ⟨row, rowOf_upsert_self cache t2 row hticker, hupd⟩
          · rw [rowOf_upsert_ne cache t t2 row h2t hticker]
            exact hinv t2
        rcases List.mem_cons.mp hr with rfl | hr2
        · refine ⟨by rw [hticker]; exact List.mem_cons_self t rest, ?_⟩
          rw [hticker]
          rcases hinv t with hsame | ⟨r0, hr0, hr0u⟩
          · unfold isStaleRow at hstale ⊢
            rw [← hsame]
            exact hstale
          · exfalso
            unfold isStaleRow at hstale
            rw [hr0] at hstale
            simp only [decide_eq_true_eq] at hstale
            omega
        · obtain ⟨h1, h2⟩ := ih (upsertRow cache t row) hinv2 r hr2
          exact ⟨List.mem_cons_of_mem t h1, h2⟩
    · simp only [refresh_stale_stocks, if_neg hstale] at hr
      obtain ⟨h1, h2⟩ := ih cache hinv r hr
      exact ⟨List.mem_cons_of_mem t h1, h2⟩

theorem refresh_rowOf_failed (fetch : String → Option ProviderData) (now maxAgeHours : ℤ)
    (t : String) (hf : fetch t = none) :
    ∀ (ts : List String) (cache : List StocksCache),
      rowOf (refresh_stale_stocks fetch now maxAgeHours cache ts).cache t = rowOf cache t := by
  intro ts
  induction ts with
  | nil => intro cache; rfl
  | cons t2 rest ih =>
    intro cache
    by_cases hstale : isStaleRow now maxAgeHours cache t2 = true
    · simp only [refresh_stale_stocks, if_pos hstale]
      rw [ih _]
      by_cases h2t : t2 = t
      · subst h2t
        rw [update_fetch_none fetch now cache t2 hf]
      · rcases hf2 : fetch t2 with _ | d
        · rw [update_fetch_none fetch now cache t2 hf2]
        · obtain ⟨row, heq, hticker, -⟩ := update_fetch_some fetch now cache t2 d hf2
          rw [heq]
          exact rowOf_upsert_ne cache t2 t row (fun h => h2t h.symm) hticker
    · simp only [refresh_stale_stocks, if_neg hstale]
      exact ih cache

/-! ## Claims C7, C8 -/

/-- Claim C7: the refresh run over the caller-truncated batch `tickers.take N`
makes at most N provider calls, leaves every ticker outside the batch (in
particular every remaining stale ticker) untouched, and every refreshed row
belongs to the batch and was stale in the starting cache. -/
theorem refresh_budget (fetch : String → Option ProviderData) (now maxAgeHours : ℤ)
    (cache : List StocksCache) (tickers : List String) (N : ℕ) (hage : 0 ≤ maxAgeHours) :
    (refresh_stale_stocks fetch now maxAgeHours cache (tickers.take N)).calls ≤ N ∧
    (∀ t, t ∉ tickers.take N →
      rowOf (refresh_stale_stocks fetch now maxAgeHours cache (tickers.take N)).cache t =
        rowOf cache t) ∧
    ∀ r ∈ (refresh_stale_stocks fetch now maxAgeHours cache (tickers.take N)).updated,
      r.ticker ∈ tickers.take N ∧ isStaleRow now maxAgeHours cache r.ticker = true := by
  refine ⟨?_, ?_, ?_⟩
  · exact le_trans (refresh_calls_le fetch now maxAgeHours (tickers.take N) cache)
      (List.length_take_le N tickers)
  · intro t ht
    exact refresh_rowOf_not_mem fetch now maxAgeHours (tickers.take N) cache t ht
  · exact refresh_updated_spec fetch now maxAgeHours cache hage (tickers.take N) cache
      (fun t2 => Or.inl rfl)

/-- Witness for C7: a budget of 1 over two requested tickers makes at most one
provider call and leaves the second ticker untouched. -/
theorem refresh_budget_witness :
    (refresh_stale_stocks demoFetch 10000 24 [] (["AAPL", "MSFT"].take 1)).calls ≤ 1 ∧
    rowOf (refresh_stale_stocks demoFetch 10000 24 [] (["AAPL", "MSFT"].take 1)).cache "MSFT" =
      rowOf [] "MSFT" :=
  ⟨(refresh_budget demoFetch 10000 24 [] ["AAPL", "MSFT"] 1 (by decide)).1,
   (refresh_budget demoFetch 10000 24 [] ["AAPL", "MSFT"] 1 (by decide)).2.1 "MSFT" (by decide)⟩

/-- Claim C8: when the provider fetch for a ticker fails or returns no usable
data (modelled as `fetch t = none`, covering raised exceptions and empty
payloads, which `get_stock_data` both turns into None), `update_stock_cache`
returns None and mutates nothing, any refresh run leaves the cached row of that ticker byte-for-byte unchanged, and the run continues with the remaining tickers
of the batch exactly as if the failed ticker had only consumed its provider
call.  The embedded refresh is a total function: no exception escapes. -/
theorem refresh_skip_failed (fetch : String → Option ProviderData) (now maxAgeHours : ℤ)
    (cache : List StocksCache) (t : String) (hf : fetch t = none) :
    update_stock_cache fetch now cache t = (cache, none) ∧
    (∀ tickers, rowOf (refresh_stale_stocks fetch now maxAgeHours cache tickers).cache t =
      rowOf cache t) ∧
    ∀ rest, (refresh_stale_stocks fetch now maxAgeHours cache (t :: rest)).cache =
        (refresh_stale_stocks fetch now maxAgeHours cache rest).cache ∧
      (refresh_stale_stocks fetch now maxAgeHours cache (t :: rest)).updated =
        (refresh_stale_stocks fetch now maxAgeHours cache rest).updated := by
  refine ⟨update_fetch_none fetch now cache t hf, ?_, ?_⟩
  · intro tickers
    exact refresh_rowOf_failed fetch now maxAgeHours t hf tickers cache
  · intro rest
    by_cases hstale : isStaleRow now maxAgeHours cache t = true
    · simp only [refresh_stale_stocks, if_pos hstale, update_fetch_none fetch now cache t hf]
      exact ⟨trivial, trivial⟩
    · simp only [refresh_stale_stocks, if_neg hstale]
      exact ⟨trivial, trivial⟩

/-- Witness for C8: a failing provider leaves a one-row cache unchanged during
an update and during a two-ticker refresh run. -/
theorem refresh_skip_failed_witness :
    update_stock_cache failFetch 10000 [demoStock] "AAPL" = ([demoStock], none) ∧
    rowOf (refresh_stale_stocks failFetch 10000 24 [demoStock] ["AAPL", "MSFT"]).cache "AAPL" =
      rowOf [demoStock] "AAPL" ∧
    (refresh_stale_stocks failFetch 10000 24 [demoStock] ("AAPL" :: ["MSFT"])).cache =
      (refresh_stale_stocks failFetch 10000 24 [demoStock] ["MSFT"]).cache :=
  ⟨(refresh_skip_failed failFetch 10000 24 [demoStock] "AAPL" rfl).1,
   (refresh_skip_failed failFetch 10000 24 [demoStock] "AAPL" rfl).2.1 ["AAPL", "MSFT"],
   ((refresh_skip_failed failFetch 10000 24 [demoStock] "AAPL" rfl).2.2 ["MSFT"]).1⟩

/-! ## Monotonicity lemmas for the score buckets -/

theorem dropBucket_price_mono (s : StocksCache) (prefs : UserPreferences) (p1 p2 : ℚ)
    (hp2 : 0 < p2) (h12 : p2 ≤ p1) :
    (dropBucket { s with last_price := some p1 } prefs).1 ≤
      (dropBucket { s with last_price := some p2 } prefs).1 := by
  have hp1 : 0 < p1 := lt_of_lt_of_le hp2 h12
  rcases hh : s.fifty_two_week_high with _ | h
  · simp [dropBucket, pyTruthy, hh]
  · by_cases hh0 : h = 0
    · simp [dropBucket, pyTruthy, hh, hh0]
    · have hb1 : (p1 != 0) = true := by simp [ne_of_gt hp1]
      have hb2 : (p2 != 0) = true := by simp [ne_of_gt hp2]
      have hbh : (h != 0) = true := by simp [hh0]
      simp only [dropBucket, pyTruthy, hh, hb1, hb2, hbh, Bool.and_self, if_true,
        Option.getD_some]
      rcases lt_or_gt_of_ne hh0 with hneg | hpos
      · have hd1 : (h - p1) / h ≥ 30/100 := by
          have hdiv : p1 / h < 0 := div_neg_of_pos_of_neg hp1 hneg
          have : (h - p1) / h = 1 - p1 / h := by
            rw [sub_div, div_self hh0]
          rw [this]
          linarith
        have hd2 : (h - p2) / h ≥ 30/100 := by
          have hdiv : p2 / h < 0 := div_neg_of_pos_of_neg hp2 hneg
          have : (h - p2) / h = 1 - p2 / h := by
            rw [sub_div, div_self hh0]
          rw [this]
          linarith
        rw [if_pos hd1, if_pos hd2]
      · have hd : (h - p1) / h ≤ (h - p2) / h := by
          exact div_le_div_of_nonneg_right (by linarith) (le_of_lt hpos)
        split_ifs <;> norm_num <;> linarith

theorem peBucket_mono (s : StocksCache) (prefs : UserPreferences) (q1 q2 : ℚ)
    (h : q1 ≤ q2) :
    (peBucket { s with pe := some q2 } prefs).1 ≤
      (peBucket { s with pe := some q1 } prefs).1 := by
  simp only [peBucket]
  split_ifs <;> norm_num <;> linarith

theorem deBucket_mono (s : StocksCache) (prefs : UserPreferences) (d1 d2 : ℚ)
    (h : d1 ≤ d2) :
    (deBucket { s with debt_to_equity := some d2 } prefs).1 ≤
      (deBucket { s with debt_to_equity := some d1 } prefs).1 := by
  simp only [deBucket]
  split_ifs <;> norm_num <;> linarith

theorem roeBucket_mono (s : StocksCache) (prefs : UserPreferences) (r1 r2 : ℚ)
    (h : r1 ≤ r2) :
    (roeBucket { s with roe := some r1 } prefs).1 ≤
      (roeBucket { s with roe := some r2 } prefs).1 := by
  simp only [roeBucket]
  split_ifs <;> norm_num <;> linarith

theorem marginBucket_mono (s : StocksCache) (prefs : UserPreferences) (m1 m2 : ℚ)
    (h : m1 ≤ m2) :
    (marginBucket { s with profit_margin := some m1 } prefs).1 ≤
      (marginBucket { s with profit_margin := some m2 } prefs).1 := by
  simp only [marginBucket]
  split_ifs <;> norm_num <;> linarith

/-! ## Claims C9, C10 -/

/-- Claim C9 counterexample: with the 52-week high fixed at 100 and all other
fields and thresholds fixed, lowering the last price from 50 (drop-from-high
1/2, 30 drop points) to 0 (drop-from-high would be 1) makes the score fall
from 30 to 0, because the drop bucket treats a zero price as missing data; so
the score is not monotone in drop-from-high over all prices below the high. -/
theorem score_drop_not_monotone_at_zero_price :
    (calculate_score { demoStock with last_price := some 0 } defaultPrefs).1 <
      (calculate_score { demoStock with last_price := some 50 } defaultPrefs).1 := by
  norm_num [calculate_score, dropBucket, peBucket, deBucket, roeBucket, marginBucket,
    demoStock, defaultPrefs, blankRow, pyTruthy]

/-- Claim C9 (amended): holding all other snapshot fields and all thresholds
fixed, the score of `calculate_score` is monotonically non-decreasing as the
last price decreases **through positive values** (equivalently as
drop-from-high increases while the price stays truthy), and — with no extra
condition — non-decreasing in ROE and in profit margin and non-increasing in
P/E and in debt-to-equity. -/
theorem calculate_score_monotone (s : StocksCache) (prefs : UserPreferences) :
    (∀ p1 p2 : ℚ, 0 < p2 → p2 ≤ p1 →
      (calculate_score { s with last_price := some p1 } prefs).1 ≤
        (calculate_score { s with last_price := some p2 } prefs).1) ∧
    (∀ r1 r2 : ℚ, r1 ≤ r2 →
      (calculate_score { s with roe := some r1 } prefs).1 ≤
        (calculate_score { s with roe := some r2 } prefs).1) ∧
    (∀ m1 m2 : ℚ, m1 ≤ m2 →
      (calculate_score { s with profit_margin := some m1 } prefs).1 ≤
        (calculate_score { s with profit_margin := some m2 } prefs).1) ∧
    (∀ q1 q2 : ℚ, q1 ≤ q2 →
      (calculate_score { s with pe := some q2 } prefs).1 ≤
        (calculate_score { s with pe := some q1 } prefs).1) ∧
    (∀ d1 d2 : ℚ, d1 ≤ d2 →
      (calculate_score { s with debt_to_equity := some d2 } prefs).1 ≤
        (calculate_score { s with debt_to_equity := some d1 } prefs).1) := by
  refine ⟨?_, ?_, ?_, ?_, ?_⟩
  · intro p1 p2 hp2 h12
    have hkey := dropBucket_price_mono s prefs p1 p2 hp2 h12
    have e1 : peBucket { s with last_price := some p1 } prefs =
        peBucket { s with last_price := some p2 } prefs := rfl
    have e2 : deBucket { s with last_price := some p1 } prefs =
        deBucket { s with last_price := some p2 } prefs := rfl
    have e3 : roeBucket { s with last_price := some p1 } prefs =
        roeBucket { s with last_price := some p2 } prefs := rfl
    have e4 : marginBucket { s with last_price := some p1 } prefs =
        marginBucket { s with last_price := some p2 } prefs := rfl
    show 0 + (dropBucket { s with last_price := some p1 } prefs).1 +
        (peBucket { s with last_price := some p1 } prefs).1 +
        (deBucket { s with last_price := some p1 } prefs).1 +
        (roeBucket { s with last_price := some p1 } prefs).1 +
        (marginBucket { s with last_price := some p1 } prefs).1 ≤
      0 + (dropBucket { s with last_price := some p2 } prefs).1 +
        (peBucket { s with last_price := some p2 } prefs).1 +
        (deBucket { s with last_price := some p2 } prefs).1 +
        (roeBucket { s with last_price := some p2 } prefs).1 +
        (marginBucket { s with last_price := some p2 } prefs).1
    rw [e1, e2, e3, e4]
    linarith
  · intro r1 r2 h
    have hkey := roeBucket_mono s prefs r1 r2 h
    have e1 : dropBucket { s with roe := some r1 } prefs =
        dropBucket { s with roe := some r2 } prefs := rfl
    have e2 : peBucket { s with roe := some r1 } prefs =
        peBucket { s with roe := some r2 } prefs := rfl
    have e3 : deBucket { s with roe := some r1 } prefs =
        deBucket { s with roe := some r2 } prefs := rfl
    have e4 : marginBucket { s with roe := some r1 } prefs =
        marginBucket { s with roe := some r2 } prefs := rfl
    show 0 + (dropBucket { s with roe := some r1 } prefs).1 +
        (peBucket { s with roe := some r1 } prefs).1 +
        (deBucket { s with roe := some r1 } prefs).1 +
        (roeBucket { s with roe := some r1 } prefs).1 +
        (marginBucket { s with roe := some r1 } prefs).1 ≤
      0 + (dropBucket { s with roe := some r2 } prefs).1 +
        (peBucket { s with roe := some r2 } prefs).1 +
        (deBucket { s with roe := some r2 } prefs).1 +
        (roeBucket { s with roe := some r2 } prefs).1 +
        (marginBucket { s with roe := some r2 } prefs).1
    rw [e1, e2, e3, e4]
    linarith
  · intro m1 m2 h
    have hkey := marginBucket_mono s prefs m1 m2 h
    have e1 : dropBucket { s with profit_margin := some m1 } prefs =
        dropBucket { s with profit_margin := some m2 } prefs := rfl
    have e2 : peBucket { s with profit_margin := some m1 } prefs =
        peBucket { s with profit_margin := some m2 } prefs := rfl
    have e3 : deBucket { s with profit_margin := some m1 } prefs =
        deBucket { s with profit_margin := some m2 } prefs := rfl
    have e4 : roeBucket { s with profit_margin := some m1 } prefs =
        roeBucket { s with profit_margin := some m2 } prefs := rfl
    show 0 + (dropBucket { s with profit_margin := some m1 } prefs).1 +
        (peBucket { s with profit_margin := some m1 } prefs).1 +
        (deBucket { s with profit_margin := some m1 } prefs).1 +
        (roeBucket { s with profit_margin := some m1 } prefs).1 +
        (marginBucket { s with profit_margin := some m1 } prefs).1 ≤
      0 + (dropBucket { s with profit_margin := some m2 } prefs).1 +
        (peBucket { s with profit_margin := some m2 } prefs).1 +
        (deBucket { s with profit_margin := some m2 } prefs).1 +
        (roeBucket { s with profit_margin := some m2 } prefs).1 +
        (marginBucket { s with profit_margin := some m2 } prefs).1
    rw [e1, e2, e3, e4]
    linarith
  · intro q1 q2 h
    have hkey := peBucket_mono s prefs q1 q2 h
    have e1 : dropBucket { s with pe := some q2 } prefs =
        dropBucket { s with pe := some q1 } prefs := rfl
    have e2 : deBucket { s with pe := some q2 } prefs =
        deBucket { s with pe := some q1 } prefs := rfl
    have e3 : roeBucket { s with pe := some q2 } prefs =
        roeBucket { s with pe := some q1 } prefs := rfl
    have e4 : marginBucket { s with pe := some q2 } prefs =
        marginBucket { s with pe := some q1 } prefs := rfl
    show 0 + (dropBucket { s with pe := some q2 } prefs).1 +
        (peBucket { s with pe := some q2 } prefs).1 +
        (deBucket { s with pe := some q2 } prefs).1 +
        (roeBucket { s with pe := some q2 } prefs).1 +
        (marginBucket { s with pe := some q2 } prefs).1 ≤
      0 + (dropBucket { s with pe := some q1 } prefs).1 +
        (peBucket { s with pe := some q1 } prefs).1 +
        (deBucket { s with pe := some q1 } prefs).1 +
        (roeBucket { s with pe := some q1 } prefs).1 +
        (marginBucket { s with pe := some q1 } prefs).1
    rw [e1, e2, e3, e4]
    linarith
  · intro d1 d2 h
    have hkey := deBucket_mono s prefs d1 d2 h
    have e1 : dropBucket { s with debt_to_equity := some d2 } prefs =
        dropBucket { s with debt_to_equity := some d1 } prefs := rfl
    have e2 : peBucket { s with debt_to_equity := some d2 } prefs =
        peBucket { s with debt_to_equity := some d1 } prefs := rfl
    have e3 : roeBucket { s with debt_to_equity := some d2 } prefs =
        roeBucket { s with debt_to_equity := some d1 } prefs := rfl
    have e4 : marginBucket { s with debt_to_equity := some d2 } prefs =
        marginBucket { s with debt_to_equity := some d1 } prefs := rfl
    show 0 + (dropBucket { s with debt_to_equity := some d2 } prefs).1 +
        (peBucket { s with debt_to_equity := some d2 } prefs).1 +
        (deBucket { s with debt_to_equity := some d2 } prefs).1 +
        (roeBucket { s with debt_to_equity := some d2 } prefs).1 +
        (marginBucket { s with debt_to_equity := some d2 } prefs).1 ≤
      0 + (dropBucket { s with debt_to_equity := some d1 } prefs).1 +
        (peBucket { s with debt_to_equity := some d1 } prefs).1 +
        (deBucket { s with debt_to_equity := some d1 } prefs).1 +
        (roeBucket { s with debt_to_equity := some d1 } prefs).1 +
        (marginBucket { s with debt_to_equity := some d1 } prefs).1
    rw [e1, e2, e3, e4]
    linarith

/-- Witness for C9: lowering the price of the demo snapshot from 80 to 60
(both positive) does not lower the score. -/
theorem calculate_score_monotone_witness :
    (calculate_score { demoStock with last_price := some 80 } defaultPrefs).1 ≤
      (calculate_score { demoStock with last_price := some 60 } defaultPrefs).1 :=
  (calculate_score_monotone demoStock defaultPrefs).1 80 60 (by decide) (by decide)

/-- Claim C10: a last price or 52-week high that is absent or exactly zero is
falsy, makes `meets_criteria` return (false, 0.0) before any division, and
makes the drop bucket of `calculate_score` award zero points with no reason;
conversely a truthy 52-week high is a non-zero divisor, so the division is
always guarded. -/
theorem division_guard (stock : StocksCache) (prefs : UserPreferences) :
    ((pyTruthy stock.last_price = false ∨ pyTruthy stock.fifty_two_week_high = false) →
      meets_criteria stock prefs = (false, 0) ∧ dropBucket stock prefs = (0, [])) ∧
    (pyTruthy stock.fifty_two_week_high = true → stock.fifty_two_week_high.getD 0 ≠ 0) ∧
    ∀ o : Option ℚ, pyTruthy o = false ↔ o = none ∨ o = some 0 := by
  refine ⟨?_, ?_, ?_⟩
  · intro h
    constructor
    · unfold meets_criteria
      rcases h with h | h <;> simp [h]
    · unfold dropBucket
      rcases h with h | h <;> simp [h]
  · intro h
    rcases hh : stock.fifty_two_week_high with _ | x
    · rw [hh] at h
      simp [pyTruthy] at h
    · rw [hh] at h
      simp only [pyTruthy, bne_iff_ne, ne_eq, decide_eq_true_eq] at h
      simpa [hh] using h
  · intro o
    rcases o with _ | x
    · simp [pyTruthy]
    · simp [pyTruthy]

/-- Witness for C10 on the demo snapshot: its price is None (falsy), so the
filter rejects it with (false, 0.0) and the drop bucket awards nothing; its
52-week high of 100 is truthy and therefore a non-zero divisor. -/
theorem division_guard_witness :
    (meets_criteria demoStock defaultPrefs = (false, 0) ∧
      dropBucket demoStock defaultPrefs = (0, [])) ∧
    demoStock.fifty_two_week_high.getD 0 ≠ 0 :=
  ⟨(division_guard demoStock defaultPrefs).1 (Or.inl (by decide)),
   (division_guard demoStock defaultPrefs).2.1 (by decide)⟩

end TextInvestment
